import Mathlib

/-!
Verification of the mongoish client/database/collection core
(`src/mongoish-client.js`, `src/database.js`, `src/collection.js`).

The JavaScript classes are shallowly embedded: mutable objects become
explicit state values threaded through the operations, `async` methods
that may `throw` become functions into `Except String`, and the
JavaScript heap identity produced by `new` is modelled by a fresh-id
counter threaded through the allocating operations.

The storage engine (`picodb`) is an external dependency of the
repository, so its behaviour is modelled from the spec (section 6):
an in-memory list of documents, `count`/`find`/`insertOne`/`insertMany`
over it, and engine-generated identifiers for documents supplied
without an `_id`.
-/

set_option autoImplicit false

/-- A primitive JavaScript value, as far as the `_id` field is concerned.
Documents in the source are open-ended records; the duplicate-detection
logic only ever inspects `d._id`, whose JavaScript truthiness matters
(`documents.filter(d => d._id)`). -/
inductive JsPrim where
  | vNull
  | vBool (b : Bool)
  | vNum (n : Int)
  | vStr (s : String)
  deriving Repr, DecidableEq, Inhabited

/-- JavaScript truthiness of a primitive value. -/
def JsPrim.truthy : JsPrim → Bool
  | .vNull => false
  | .vBool b => b
  | .vNum n => n != 0
  | .vStr s => s != ""

/-- JavaScript string coercion of a primitive value, as used by template
interpolation `${_id}` and by object keys (`encountered[_id]`). -/
def jsToString : JsPrim → String
  | .vNull => "null"
  | .vBool true => "true"
  | .vBool false => "false"
  | .vNum n => toString n
  | .vStr s => s

/-- A document: an open-ended record.  The core only inspects `_id`
(`none` models an absent `_id` key); the rest of the record is opaque
and carried by `payload`. -/
structure Document where
  _id : Option JsPrim := none
  payload : Nat := 0
  deriving Repr, DecidableEq, Inhabited

/-- `d._id` as a JavaScript truthiness test: absent (`undefined`) is falsy. -/
def truthyId (d : Document) : Bool :=
  match d._id with
  | some v => v.truthy
  | none => false

/-- The `_id` value of a document, defaulting to JavaScript `null`
when the key is absent. -/
def idPrim (d : Document) : JsPrim :=
  d._id.getD .vNull

/-- The string key a document's `_id` coerces to when used as a key of the
`encountered` object in `insertMany`. -/
def idKey (d : Document) : String :=
  jsToString (idPrim d)

/-- Modelled from the spec: the state of one instance of the injected
storage engine (an in-memory document store, `picodb` in the source).
`docs` is the stored documents in insertion order; `counter` drives
engine-generated identifiers. -/
structure EngineState where
  docs : List Document := []
  counter : Nat := 0
  deriving Repr, DecidableEq, Inhabited

/-- Modelled from the spec: `engine.count({ _id: v })` — the number of
stored documents whose `_id` equals `v`. -/
def engineCount (v : JsPrim) (es : EngineState) : Nat :=
  es.docs.countP (fun d => d._id == some v)

/-- Modelled from the spec: `engine.find({ _id: { $in: ids } }).toArray()` —
the stored documents whose `_id` is one of `ids`, in engine (storage) order. -/
def engineFindIdIn (ids : List JsPrim) (es : EngineState) : List Document :=
  es.docs.filter (fun d => ids.any (fun v => d._id == some v))

/-- Modelled from the spec: storing one document.  When the caller supplies
no `_id`, the engine generates one (`genId` applied to the engine's
counter); otherwise the document is stored unchanged.  Returns the new
engine state and the stored document. -/
def engineStore (genId : Nat → String) (es : EngineState) (d : Document) :
    EngineState × Document :=
  match d._id with
  | none =>
      let stored : Document := { d with _id := some (.vStr (genId es.counter)) }
      ({ docs := es.docs ++ [stored], counter := es.counter + 1 }, stored)
  | some _ =>
      ({ docs := es.docs ++ [d], counter := es.counter }, d)

/-- Modelled from the spec: `engine.insertMany(documents)` — stores each
document in input order and returns the inserted documents (also in
input order), generating identifiers where none were supplied. -/
def engineInsertMany (genId : Nat → String) (es : EngineState) :
    List Document → EngineState × List Document
  | [] => (es, [])
  | d :: rest =>
      let p := engineStore genId es d
      let q := engineInsertMany genId p.1 rest
      (q.1, p.2 :: q.2)

/-- Modelled from the spec: `engine.insertOne(document)` — stores the
document and returns it (the source reads `result[0]`). -/
def engineInsertOne (genId : Nat → String) (es : EngineState) (d : Document) :
    EngineState × Document :=
  engineStore genId es d

/-- The state of a `MongoishClient`.  `_Engine` in the source is always a
class value; only its `NAME`/`VERSION` statics and its zero-argument
construction matter to the core, so the binding is represented by the
two identifier strings (the `NoopEngine` placeholder has both empty). -/
structure ClientState where
  engineNAME : String := ""
  engineVERSION : String := ""
  _isConnected : Bool := false
  deriving Repr, DecidableEq, Inhabited

/-- The state of a freshly constructed `MongoishClient`: the `NoopEngine`
placeholder (empty `NAME` and `VERSION`) and disconnected. -/
def newMongoishClient : ClientState :=
  { engineNAME := "", engineVERSION := "", _isConnected := false }

/-- The bound-engine check shared by `connect()`, `close()` and `db()`:
`!this._Engine || !this._Engine.NAME || !this._Engine.VERSION` inverted
(`_Engine` itself is always truthy in the source). -/
def engineBound (st : ClientState) : Bool :=
  st.engineNAME != "" && st.engineVERSION != ""

/-- The not-connected error message thrown by the gated operations, with
its per-method `begin` prefix. -/
def notConnectedMsg (begin_ : String) : String :=
  begin_ ++ ": Client must be connected before running operations"

/-- The argument given to `injectEngine()`, before validation: the source
duck-types it, so it may fail to be a function or lack the `NAME` /
`VERSION` statics (`none` models an absent or non-string static). -/
structure EngineArg where
  isFunction : Bool := true
  NAME : Option String := none
  VERSION : Option String := none
  deriving Repr, DecidableEq, Inhabited

/-- `aintaFunction(Engine, 'Engine', { schema: { NAME: {min:1,...},
VERSION: {min:1,...} } })` from `injectEngine()`: the argument must be a
function whose `NAME` and `VERSION` are strings of length at least 1. -/
def validEngineArg (e : EngineArg) : Bool :=
  e.isFunction
    && (match e.NAME with | some s => 1 ≤ s.length | none => false)
    && (match e.VERSION with | some s => 1 ≤ s.length | none => false)

/-- `MongoishClient.injectEngine(Engine)`: fails if a binding already
exists (`this._Engine && (this._Engine.NAME || this._Engine.VERSION)`),
then validates the argument, then records the binding.  A thrown error
leaves the client unchanged, which the `Except` encoding makes explicit. -/
def injectEngine (st : ClientState) (engine : EngineArg) : Except String ClientState :=
  if st.engineNAME != "" || st.engineVERSION != "" then
    .error ("injectEngine(): A database engine has already be injected, " ++
      "`injectEngine()` can only be called once per client")
  else if !validEngineArg engine then
    .error "injectEngine(): `Engine` fails validation"
  else
    .ok { st with engineNAME := engine.NAME.getD "", engineVERSION := engine.VERSION.getD "" }

/-- The part of `MongoishClient.connect()` that runs synchronously, before
the `await new Promise(resolve => setImmediate(resolve))` suspension:
the bound-engine check only — the connected flag is not yet touched. -/
def connectPhase1 (st : ClientState) : Except String ClientState :=
  if !engineBound st then
    .error "connect(): A real database engine must be injected, using `injectEngine()`"
  else
    .ok st

/-- The part of `MongoishClient.connect()` that runs after the suspension:
`this._isConnected = true`. -/
def connectResume (st : ClientState) : ClientState :=
  { st with _isConnected := true }

/-- The part of `MongoishClient.close()` that runs synchronously, before
its suspension: the bound-engine check, then `this._isConnected = false`
immediately. -/
def closePhase1 (st : ClientState) : Except String ClientState :=
  if !engineBound st then
    .error "close(): A real database engine must be injected, using `injectEngine()`"
  else
    .ok { st with _isConnected := false }

/-- The part of `MongoishClient.close()` that runs after the suspension:
nothing — the state was already updated before suspending. -/
def closeResume (st : ClientState) : ClientState :=
  st

/-- A lowercase letter, for the `/^[a-z][_a-z0-9]*$/` naming policy. -/
def lowerAlpha (c : Char) : Bool :=
  'a' ≤ c && c ≤ 'z'

/-- A character allowed after the first one by `/^[a-z][_a-z0-9]*$/`. -/
def nameBody (c : Char) : Bool :=
  c = '_' || lowerAlpha c || ('0' ≤ c && c ≤ '9')

/-- Whether a string matches `/^[a-z][_a-z0-9]*$/`. -/
def nameRx (s : String) : Bool :=
  match s.data with
  | [] => false
  | c :: rest => lowerAlpha c && rest.all nameBody

/-- Modelled from the spec: the `@0bdx/ainta` validation of database and
collection names (`min:1, max:64, rx:/^[a-z][_a-z0-9]*$/`).  The exact
ainta message texts are not needed by any claim and are abbreviated. -/
def validName (s : String) : Bool :=
  1 ≤ s.length && s.length ≤ 64 && nameRx s

/-- A `Collection` object: its heap identity (`instId`, assigned from the
fresh-id counter by `new`), its name, and the engine instance created at
construction by `new client._Engine()` (exclusively owned). -/
structure Collection where
  instId : Nat
  _collectionName : String
  _engine : EngineState := {}
  deriving Repr, DecidableEq

/-- A `Database` object: its heap identity and its collection cache, an
insertion-ordered map from collection name to `Collection`.  The source
constructor validates `(client, dbName)` but stores only the client
back-reference (here threaded into each operation), so no name field
exists on the object. -/
structure DatabaseObj where
  instId : Nat
  _collections : List (String × Collection) := []
  deriving Repr, DecidableEq

/-- `new Database(client, dbName)`: validates the client shape and that
`dbName` is a string (both are type-level here), stores the client
back-reference, and initialises the empty collection cache.  The name
argument is validated but not stored.  `fresh` is the heap identity the
allocation receives. -/
def newDatabase (dbName : String) (fresh : Nat) : DatabaseObj :=
  let _ := dbName
  { instId := fresh, _collections := [] }

/-- `MongoishClient.db(dbName)`: bound-engine check, then name validation,
then the connected check, then `new Database(this, dbName)` — a fresh
`Database` object on every call, never cached by the client. -/
def clientDb (st : ClientState) (dbName : String) (fresh : Nat) :
    Except String (DatabaseObj × Nat) :=
  if !engineBound st then
    .error "db(): A real database engine must be injected, using `injectEngine()`"
  else if !validName dbName then
    .error "db(): `dbName` fails validation"
  else if !st._isConnected then
    .error (notConnectedMsg "db()")
  else
    .ok (newDatabase dbName fresh, fresh + 1)

/-- `new Collection(client, collectionName)`: validates the client shape
and that the name is a string (type-level here), stores the name, and
creates a fresh engine instance (`new client._Engine()`). -/
def newCollection (collectionName : String) (fresh : Nat) : Collection :=
  { instId := fresh, _collectionName := collectionName, _engine := {} }

/-- The property keys a plain object literal inherits from
`Object.prototype` in Node.  The JavaScript `in` operator answers `true`
for these on an object that never assigned them, and a property read of
one of these keys yields the inherited (truthy) function — or, for
`__proto__`, the prototype object itself. -/
def objectProtoKeys : List String :=
  ["constructor", "__defineGetter__", "__defineSetter__", "hasOwnProperty",
    "__lookupGetter__", "__lookupSetter__", "isPrototypeOf", "propertyIsEnumerable",
    "toString", "valueOf", "__proto__", "toLocaleString"]

/-- Modelled from Node (V8) behaviour: the text that template
interpolation produces for the value read from a plain object at an
inherited `Object.prototype` key — the stringification of the inherited
function (whose function name for the `constructor` key is `Object`),
or of the prototype object itself for `__proto__`. -/
def protoValueText (k : String) : String :=
  if k = "__proto__" then "[object Object]"
  else if k = "constructor" then "function Object() \x7b [native code] \x7d"
  else "function " ++ k ++ "() \x7b [native code] \x7d"

/-- What the cache probe `this._collections[collectionName]` can evaluate
to when it is truthy: an own cached `Collection`, or the property the
plain object inherits from `Object.prototype` (for example the `Object`
constructor function at the key `constructor`) — the source then
returns that inherited function as if it were a collection. -/
inductive CollectionResult where
  | coll (c : Collection)
  | protoMember (k : String)
  deriving Repr, DecidableEq

/-- `Database.collection(collectionName)`: name validation, connected
check, then the truthy probe `this._collections[collectionName]` — the
own cached `Collection` when present, otherwise the inherited
`Object.prototype` member for a key such as `constructor` (returned
as-is, nothing cached), otherwise `undefined`, in which case a fresh
`Collection` is constructed, cached (appended in insertion order) and
returned. -/
def Database.collection (cl : ClientState) (d : DatabaseObj)
    (collectionName : String) (fresh : Nat) :
    Except String (CollectionResult × DatabaseObj × Nat) :=
  if !validName collectionName then
    .error "collection(): `collectionName` fails validation"
  else if !cl._isConnected then
    .error (notConnectedMsg "collection()")
  else
    match (d._collections.lookup collectionName) with
    | some existing => .ok (.coll existing, d, fresh)
    | none =>
        if collectionName ∈ objectProtoKeys then
          .ok (.protoMember collectionName, d, fresh)
        else
          let created := newCollection collectionName fresh
          .ok (.coll created,
            { d with _collections := d._collections ++ [(collectionName, created)] }, fresh + 1)

/-- `Database.dropDatabase()`: unconditionally clears the collection cache
and resolves to `true`.  It reads no connection state and cannot fail. -/
def Database.dropDatabase (d : DatabaseObj) : DatabaseObj × Bool :=
  ({ d with _collections := [] }, true)

/-- `Database.listCollections()`: `Object.keys(this._collections)` — the
cached collection names in insertion order.  It reads no connection
state and cannot fail. -/
def Database.listCollections (d : DatabaseObj) : List String :=
  d._collections.map Prod.fst

/-- The `insertOne()` duplicate-key error text, exactly as built by the
source: `insertOne(): E11000 duplicate key error collection:
<collectionName>.documents index: _id_ dup key: { _id: "<id>" }`. -/
def dupKeyMsg (collectionName : String) (idText : String) : String :=
  "insertOne(): E11000 duplicate key error collection: " ++ collectionName ++
    ".documents index: _id_ dup key: \x7b _id: \"" ++ idText ++ "\" \x7d"

/-- The `insertMany()` intra-batch duplicate error text: `` insertMany():
`documents[<i>]` has the same `_id` '<id>' as `documents[<asText>]` ``.
The last interpolation is `${encountered[_id]}`: the first-occurrence
index for an own key, but the stringified inherited value when `_id`
names an `Object.prototype` member, so it is built from a string. -/
def intraMsg (i : Nat) (v : JsPrim) (asText : String) : String :=
  "insertMany(): `documents[" ++ toString i ++ "]` has the same `_id` \x27" ++
    jsToString v ++ "\x27 as `documents[" ++ asText ++ "]`"

/-- The `insertMany()` cross-batch duplicate error text: `` insertMany():
Collection '<collectionName>' already contains a document with `_id`
'<id>' ``. -/
def crossMsg (collectionName : String) (v : JsPrim) : String :=
  "insertMany(): Collection \x27" ++ collectionName ++
    "\x27 already contains a document with `_id` \x27" ++ jsToString v ++ "\x27"

/-- The index of the first occurrence of `k` in a list of keys (the value
`encountered[k]` holds, since `encountered` records only the first
index of each key). -/
def idxOfKey (k : String) : List String → Nat
  | [] => 0
  | p :: rest => if p = k then 0 else idxOfKey k rest + 1

/-- The `docsWithIds.forEach` duplicate scan of `insertMany`: walk the
documents in order; at each one, the JavaScript test `(_id in
encountered)` is true when the key was assigned before (an own property,
reported with its first-occurrence index) or when it is inherited from
`Object.prototype` (such as `toString`), in which case the source throws
at the key's first occurrence with the inherited value interpolated.
The `encountered` object's own keys are represented by `pref`, the keys
of the documents already processed, in order; own properties shadow
inherited ones on a property read. -/
def scanDup (pref : List String) : List Document → Option (Nat × JsPrim × String)
  | [] => none
  | d :: rest =>
      let k := idKey d
      if k ∈ pref then some (pref.length, idPrim d, toString (idxOfKey k pref))
      else if k ∈ objectProtoKeys then some (pref.length, idPrim d, protoValueText k)
      else scanDup (pref ++ [k]) rest

/-- The two-phase duplicate detection of `Collection.insertMany`, run only
when some document carries a truthy `_id`: first the intra-batch scan
over `docsWithIds`, then — only if that passes — the single engine query
for already-stored ids, failing on the first document the engine
returns.  Produces the error message, if any. -/
def dupCheck (collectionName : String) (es : EngineState)
    (documents : List Document) : Option String :=
  let docsWithIds := documents.filter truthyId
  if docsWithIds.isEmpty then none
  else
    let ids := docsWithIds.map idPrim
    match scanDup [] docsWithIds with
    | some (i, v, t) => some (intraMsg i v t)
    | none =>
        match engineFindIdIn ids es with
        | [] => none
        | d0 :: _ => some (crossMsg collectionName (idPrim d0))

/-- `Collection.insertMany` results object: `{acknowledged: true,
insertedCount: result.length, insertedIds: {0: result[0]._id, 1:
result[1]._id, ...}}`; the index-keyed object is represented by the
positional list `insertedIds`. -/
structure InsertManyResult where
  acknowledged : Bool
  insertedCount : Nat
  insertedIds : List JsPrim
  deriving Repr, DecidableEq

/-- `Collection.insertOne(document)` result object:
`{acknowledged: true, insertedId: result[0]._id}`. -/
structure InsertOneResult where
  acknowledged : Bool
  insertedId : JsPrim
  deriving Repr, DecidableEq

/-- `Collection.insertMany(documents)`: argument validation (type-level
here), the connected check, the two-phase duplicate detection, then
delegation of the whole unmodified batch to the engine.  On success the
updated collection (with the grown engine state) is returned along with
the results object. -/
def Collection.insertMany (genId : Nat → String) (cl : ClientState)
    (c : Collection) (documents : List Document) :
    Except String (Collection × InsertManyResult) :=
  if !cl._isConnected then .error (notConnectedMsg "insertMany()")
  else
    match dupCheck c._collectionName c._engine documents with
    | some msg => .error msg
    | none =>
        let r := engineInsertMany genId c._engine documents
        .ok ({ c with _engine := r.1 },
          { acknowledged := true,
            insertedCount := r.2.length,
            insertedIds := r.2.map idPrim })

/-- `Collection.insertOne(document)`: argument validation (type-level
here), the connected check, then — only when `document._id` is truthy —
the engine `count` duplicate probe with the E11000 error, then
delegation to the engine. -/
def Collection.insertOne (genId : Nat → String) (cl : ClientState)
    (c : Collection) (document : Document) :
    Except String (Collection × InsertOneResult) :=
  if !cl._isConnected then .error (notConnectedMsg "insertOne()")
  else if truthyId document && engineCount (idPrim document) c._engine != 0 then
    .error (dupKeyMsg c._collectionName (jsToString (idPrim document)))
  else
    let r := engineInsertOne genId c._engine document
    .ok ({ c with _engine := r.1 },
      { acknowledged := true, insertedId := idPrim r.2 })

/-- `Collection.find(filter)`: argument validation (type-level here), the
connected check, then delegation to the engine.  The engine's cursor,
drained, is the stored documents matching the filter — the matching
predicate itself is engine-defined and out of scope, so it is a
parameter. -/
def Collection.find (cl : ClientState) (c : Collection)
    (filterMatches : Document → Bool) : Except String (List Document) :=
  if !cl._isConnected then .error (notConnectedMsg "find()")
  else .ok (c._engine.docs.filter filterMatches)

/-- Whether an `Except` result is a success (no error was thrown). -/
def exceptOk {ε α : Type} : Except ε α → Bool
  | .ok _ => true
  | .error _ => false

/-- The keys of the documents of a batch that carry a truthy `_id`, in
input order — the subsequence the intra-batch scan of `insertMany`
operates on. -/
def keysOf (documents : List Document) : List String :=
  (documents.filter truthyId).map idKey

/-- The `_id` values of the documents of a batch that carry a truthy
`_id`, in input order — the `ids` array of `insertMany`'s engine query. -/
def idsOf (documents : List Document) : List JsPrim :=
  (documents.filter truthyId).map idPrim

/-- A pair of positions `(i, j)` witnessing the first repeated key of
`keys`, in order: `j < i`, the keys at `i` and `j` agree, no pair of
positions before `i` agrees, and `j` is the first position carrying the
key repeated at `i`.  This is the specification-side description of what
the `insertMany` intra-batch scan reports. -/
def FRP (keys : List String) (i j : Nat) : Prop :=
  j < i ∧ i < keys.length ∧ keys[i]? = keys[j]? ∧
    (∀ a, a < i → ∀ b, b < a → keys[a]? ≠ keys[b]?) ∧
    (∀ b, b < j → keys[b]? ≠ keys[i]?)

instance (keys : List String) (i j : Nat) : Decidable (FRP keys i j) := by
  unfold FRP
  infer_instance

lemma lookup_append_of_eq_none {α β : Type} [BEq α] (l1 l2 : List (α × β)) (k : α)
    (h : l1.lookup k = none) : (l1 ++ l2).lookup k = l2.lookup k := by
  induction l1 with
  | nil => simp
  | cons p rest ih =>
      simp only [List.lookup] at h ⊢
      cases hbe : k == p.1 with
      | true => simp [hbe] at h
      | false =>
          simp only [hbe] at h ⊢
          exact ih h

lemma idxOfKey_lt_length (k : String) (l : List String) (h : k ∈ l) :
    idxOfKey k l < l.length := by
  induction l with
  | nil => cases h
  | cons p rest ih =>
      simp only [idxOfKey]
      by_cases hp : p = k
      · simp [hp]
      · have : k ∈ rest := by
          cases List.mem_cons.mp h with
          | inl he => exact absurd he.symm hp
          | inr hm => exact hm
        simp only [hp, if_false, List.length_cons]
        exact Nat.succ_lt_succ (ih this)

lemma getElem?_idxOfKey (k : String) (l : List String) (h : k ∈ l) :
    l[idxOfKey k l]? = some k := by
  induction l with
  | nil => cases h
  | cons p rest ih =>
      simp only [idxOfKey]
      by_cases hp : p = k
      · simp [hp]
      · have : k ∈ rest := by
          cases List.mem_cons.mp h with
          | inl he => exact absurd he.symm hp
          | inr hm => exact hm
        simp only [hp, if_false]
        simpa using ih this

lemma ne_of_lt_idxOfKey (k : String) (l : List String) (b : Nat)
    (hb : b < idxOfKey k l) : l[b]? ≠ some k := by
  induction l generalizing b with
  | nil => simp [idxOfKey] at hb
  | cons p rest ih =>
      simp only [idxOfKey] at hb
      by_cases hp : p = k
      · simp [hp] at hb
      · simp only [hp, if_false] at hb
        cases b with
        | zero =>
            simp only [List.getElem?_cons_zero, ne_eq, Option.some_inj]
            exact hp
        | succ b' =>
            simp only [List.getElem?_cons_succ]
            exact ih b' (Nat.lt_of_succ_lt_succ hb)

lemma mem_of_getElem_str (l : List String) (n : Nat) (a : String) (h : l[n]? = some a) :
    a ∈ l := by
  induction l generalizing n with
  | nil => simp at h
  | cons x xs ih =>
      cases n with
      | zero =>
          simp only [List.getElem?_cons_zero, Option.some_inj] at h
          subst h
          exact List.mem_cons_self _ _
      | succ m =>
          simp only [List.getElem?_cons_succ] at h
          exact List.mem_cons_of_mem _ (ih m h)

lemma frp_pref_le (pref tail : List String) (i j : Nat) (hnd : pref.Nodup)
    (h : FRP (pref ++ tail) i j) : pref.length ≤ i := by
  by_contra hlt
  push_neg at hlt
  obtain ⟨hji, _hi, heq, _hmin, _hleast⟩ := h
  have hj : j < pref.length := Nat.lt_trans hji hlt
  rw [List.getElem?_append_left hlt, List.getElem?_append_left hj] at heq
  exact (List.nodup_iff_getElem?_ne_getElem?.mp hnd) j i hji hlt heq.symm

lemma scanDup_of_FRP :
    ∀ (ds : List Document) (pref : List String), pref.Nodup →
      ∀ i j : Nat, FRP (pref ++ ds.map idKey) i j →
      (∀ a, a < i → (pref ++ ds.map idKey).getD a "" ∉ objectProtoKeys) →
      scanDup pref ds = some (i, idPrim (ds.getD (i - pref.length) default), toString j) := by
  intro ds
  induction ds with
  | nil =>
      intro pref hnd i j h _
      exfalso
      obtain ⟨hji, hi, heq, _, _⟩ := h
      simp only [List.map_nil, List.append_nil] at hi heq
      have hj : j < pref.length := Nat.lt_trans hji hi
      exact (List.nodup_iff_getElem?_ne_getElem?.mp hnd) j i hji hi heq.symm
  | cons d rest ih =>
      intro pref hnd i j h hproto
      by_cases hk : idKey d ∈ pref
      · have hile : pref.length ≤ i := frp_pref_le _ _ _ _ hnd h
        obtain ⟨hji, hi, heq, hmin, hleast⟩ := h
        have hboundary : (pref ++ (d :: rest).map idKey)[pref.length]? = some (idKey d) := by
          rw [List.getElem?_append_right (Nat.le_refl _)]
          simp
        have hidx_lt : idxOfKey (idKey d) pref < pref.length := idxOfKey_lt_length _ _ hk
        have hidx_val :
            (pref ++ (d :: rest).map idKey)[idxOfKey (idKey d) pref]? = some (idKey d) := by
          rw [List.getElem?_append_left hidx_lt]
          exact getElem?_idxOfKey _ _ hk
        have hieq : i = pref.length := by
          rcases Nat.lt_or_ge pref.length i with hgt | hge
          · exact absurd (hboundary.trans hidx_val.symm)
              (hmin pref.length hgt (idxOfKey (idKey d) pref) hidx_lt)
          · exact Nat.le_antisymm hge hile
        subst hieq
        have hjval : pref[j]? = some (idKey d) := by
          have h2 := heq
          rw [hboundary] at h2
          rw [List.getElem?_append_left hji] at h2
          exact h2.symm
        have hjeq : j = idxOfKey (idKey d) pref := by
          rcases Nat.lt_trichotomy j (idxOfKey (idKey d) pref) with hlt | heq2 | hgt
          · exact absurd hjval (ne_of_lt_idxOfKey _ _ _ hlt)
          · exact heq2
          · exfalso
            apply hleast (idxOfKey (idKey d) pref) hgt
            rw [hidx_val, hboundary]
        subst hjeq
        simp [scanDup, hk, Nat.sub_self]
      · by_cases hp : idKey d ∈ objectProtoKeys
        · exfalso
          have hile : pref.length ≤ i := frp_pref_le _ _ _ _ hnd h
          obtain ⟨hji, _hi, heq, _hmin, _hleast⟩ := h
          have hboundary : (pref ++ (d :: rest).map idKey)[pref.length]? = some (idKey d) := by
            rw [List.getElem?_append_right (Nat.le_refl _)]
            simp
          have hne : i ≠ pref.length := by
            intro hie
            subst hie
            have h2 := heq
            rw [hboundary, List.getElem?_append_left hji] at h2
            exact hk (mem_of_getElem_str pref j (idKey d) h2.symm)
          have hlt : pref.length < i := Nat.lt_of_le_of_ne hile (fun he => hne he.symm)
          have hnp := hproto pref.length hlt
          rw [List.getD_eq_getElem?_getD, hboundary] at hnp
          exact hnp hp
        · have hnd2 : (pref ++ [idKey d]).Nodup := by
            simp [List.nodup_append, hnd, hk]
          have hassoc : (pref ++ [idKey d]) ++ rest.map idKey = pref ++ (d :: rest).map idKey := by
            simp
          have h2 : FRP ((pref ++ [idKey d]) ++ rest.map idKey) i j := by
            rw [hassoc]
            exact h
          have hproto2 :
              ∀ a, a < i → ((pref ++ [idKey d]) ++ rest.map idKey).getD a "" ∉ objectProtoKeys := by
            rw [hassoc]
            exact hproto
          have hile : (pref ++ [idKey d]).length ≤ i := frp_pref_le _ _ _ _ hnd2 h2
          simp only [List.length_append, List.length_singleton] at hile
          have hrec := ih (pref ++ [idKey d]) hnd2 i j h2 hproto2
          have hstep : scanDup pref (d :: rest) = scanDup (pref ++ [idKey d]) rest := by
            simp [scanDup, hk, hp]
          rw [hstep, hrec]
          have hm : i - pref.length = (i - (pref.length + 1)) + 1 := by omega
          rw [hm, List.getD_cons_succ]
          simp [List.length_append]

lemma scanDup_eq_none_of_clean :
    ∀ (ds : List Document) (pref : List String),
      (pref ++ ds.map idKey).Nodup → (∀ k ∈ ds.map idKey, k ∉ objectProtoKeys) →
      scanDup pref ds = none := by
  intro ds
  induction ds with
  | nil => intro pref _ _; rfl
  | cons d rest ih =>
      intro pref h hcl
      have hk : idKey d ∉ pref := by
        intro hmem
        rw [List.nodup_append] at h
        exact h.2.2 hmem (by simp)
      have hp : idKey d ∉ objectProtoKeys := hcl (idKey d) (by simp)
      have h2 : ((pref ++ [idKey d]) ++ rest.map idKey).Nodup := by
        rw [show (pref ++ [idKey d]) ++ rest.map idKey = pref ++ (d :: rest).map idKey by simp]
        exact h
      have hcl2 : ∀ k ∈ rest.map idKey, k ∉ objectProtoKeys := by
        intro k hkm
        exact hcl k (by simp only [List.map_cons, List.mem_cons]; exact Or.inr hkm)
      simp only [scanDup, hk, hp, if_false]
      exact ih _ h2 hcl2

lemma clean_of_scanDup_none :
    ∀ (ds : List Document) (pref : List String), pref.Nodup →
      scanDup pref ds = none →
      (pref ++ ds.map idKey).Nodup ∧ ∀ k ∈ ds.map idKey, k ∉ objectProtoKeys := by
  intro ds
  induction ds with
  | nil =>
      intro pref h _
      constructor
      · simpa using h
      · intro k hk
        simp at hk
  | cons d rest ih =>
      intro pref hnd hres
      by_cases hk : idKey d ∈ pref
      · simp [scanDup, hk] at hres
      · by_cases hp : idKey d ∈ objectProtoKeys
        · simp [scanDup, hk, hp] at hres
        · have hres2 : scanDup (pref ++ [idKey d]) rest = none := by
            simpa [scanDup, hk, hp] using hres
          have hnd2 : (pref ++ [idKey d]).Nodup := by
            simp [List.nodup_append, hnd, hk]
          obtain ⟨hall, hcl⟩ := ih _ hnd2 hres2
          rw [show (pref ++ [idKey d]) ++ rest.map idKey = pref ++ (d :: rest).map idKey by simp]
            at hall
          refine ⟨hall, ?_⟩
          intro k hkm
          simp only [List.map_cons, List.mem_cons] at hkm
          cases hkm with
          | inl he => rw [he]; exact hp
          | inr hm => exact hcl k hm

lemma engineInsertMany_length (genId : Nat → String) :
    ∀ (docs : List Document) (es : EngineState),
      (engineInsertMany genId es docs).2.length = docs.length := by
  intro docs
  induction docs with
  | nil => intro es; rfl
  | cons d rest ih =>
      intro es
      simp [engineInsertMany, ih]

lemma engineInsertMany_ids (genId : Nat → String) :
    ∀ (docs : List Document) (es : EngineState) (i : Nat) (d : Document),
      docs[i]? = some d →
      ∃ d2 : Document, (engineInsertMany genId es docs).2[i]? = some d2 ∧
        (∀ v, d._id = some v → d2._id = some v) ∧
        (d._id = none → ∃ k, d2._id = some (.vStr (genId k))) := by
  intro docs
  induction docs with
  | nil =>
      intro es i d h
      simp at h
  | cons d0 rest ih =>
      intro es i d h
      cases i with
      | zero =>
          simp only [List.getElem?_cons_zero, Option.some_inj] at h
          subst h
          refine ⟨(engineStore genId es d0).2, by simp [engineInsertMany], ?_, ?_⟩
          · intro v hv
            simp [engineStore, hv]
          · intro hv
            exact ⟨es.counter, by simp [engineStore, hv]⟩
      | succ i2 =>
          simp only [List.getElem?_cons_succ] at h
          obtain ⟨d2, h1, h2, h3⟩ := ih (engineStore genId es d0).1 i2 d h
          exact ⟨d2, by simpa [engineInsertMany] using h1, h2, h3⟩

lemma id_of_truthy (d : Document) (h : truthyId d = true) : d._id = some (idPrim d) := by
  unfold truthyId at h
  cases hd : d._id with
  | none => rw [hd] at h; cases h
  | some v => simp [idPrim, hd]

lemma dupCheck_eq_none (cn : String) (es : EngineState) (documents : List Document)
    (hnodup : (keysOf documents).Nodup)
    (hclean : ∀ k ∈ keysOf documents, k ∉ objectProtoKeys)
    (hfresh : ∀ d ∈ es.docs, ∀ dd ∈ documents.filter truthyId, d._id ≠ dd._id) :
    dupCheck cn es documents = none := by
  unfold dupCheck
  by_cases hemp : (documents.filter truthyId).isEmpty
  · simp [hemp]
  · have hscan : scanDup [] (documents.filter truthyId) = none := by
      apply scanDup_eq_none_of_clean
      · simpa [keysOf] using hnodup
      · simpa [keysOf] using hclean
    have hfind : engineFindIdIn ((documents.filter truthyId).map idPrim) es = [] := by
      rw [engineFindIdIn, List.filter_eq_nil_iff]
      intro d hd
      simp only [List.any_eq_true, not_exists, not_and]
      intro v hv
      obtain ⟨dd, hdd, hvdd⟩ := List.mem_map.mp hv
      intro hbeq
      have hdeq : d._id = some v := by simpa using hbeq
      have htr : truthyId dd = true := List.of_mem_filter hdd
      have : dd._id = some v := by
        rw [id_of_truthy dd htr, hvdd]
      exact hfresh d hd dd hdd (by rw [hdeq, this])
    simp [hemp, hscan, hfind]

lemma truthyId_of_vStr (d : Document) (X : String) (hdoc : d._id = some (.vStr X))
    (hX : X ≠ "") : truthyId d = true := by
  unfold truthyId
  rw [hdoc]
  exact bne_iff_ne.mpr hX

/-- C1: for every collection and every non-empty string id `X`, if a
document with `_id` `X` is already stored, a later `insertOne` of a
document with `_id` `X` rejects with exactly the literal E11000 message
naming the collection and `X`. -/
theorem insertOne_duplicate_key_message (genId : Nat → String) (cl : ClientState)
    (c : Collection) (document : Document) (X : String)
    (hconn : cl._isConnected = true) (hX : X ≠ "")
    (hstored : ∃ d ∈ c._engine.docs, d._id = some (.vStr X))
    (hdoc : document._id = some (.vStr X)) :
    Collection.insertOne genId cl c document = .error (dupKeyMsg c._collectionName X) := by
  have hidp : idPrim document = .vStr X := by
    simp [idPrim, hdoc]
  have htr : truthyId document = true := truthyId_of_vStr document X hdoc hX
  have hpos : engineCount (JsPrim.vStr X) c._engine ≠ 0 := by
    obtain ⟨d, hd, hid⟩ := hstored
    have : 0 < engineCount (JsPrim.vStr X) c._engine := by
      unfold engineCount
      exact List.countP_pos_iff.mpr ⟨d, hd, by simp [hid]⟩
    omega
  have hcond : (truthyId document && engineCount (idPrim document) c._engine != 0) = true := by
    rw [htr, hidp]
    simp [bne_iff_ne, hpos]
  unfold Collection.insertOne
  rw [hconn, hcond]
  simp [hidp, jsToString]

def exGenId : Nat → String := fun n => "g" ++ toString n

def strDoc (s : String) (p : Nat) : Document :=
  { _id := some (.vStr s), payload := p }

def noIdDoc (p : Nat) : Document :=
  { _id := none, payload := p }

def exClientConn : ClientState :=
  { engineNAME := "ok", engineVERSION := "1.2.3", _isConnected := true }

def exCollAbc : Collection :=
  { instId := 0, _collectionName := "coll_1",
    _engine := { docs := [strDoc "abc123xyz" 2], counter := 0 } }

theorem insertOne_duplicate_key_message_witness :
    exClientConn._isConnected = true ∧ "abc123xyz" ≠ "" ∧
    Collection.insertOne exGenId exClientConn exCollAbc (strDoc "abc123xyz" 3) =
      .error ("insertOne(): E11000 duplicate key error collection: coll_1.documents " ++
        "index: _id_ dup key: \x7b _id: \"abc123xyz\" \x7d") :=
  ⟨rfl, by decide,
    insertOne_duplicate_key_message exGenId exClientConn exCollAbc (strDoc "abc123xyz" 3)
      "abc123xyz" rfl (by decide) ⟨strDoc "abc123xyz" 2, by simp [exCollAbc], rfl⟩ rfl⟩

/-- C10: a document whose `_id` is falsy (absent, empty string, 0, false
or null) takes part in no duplicate detection: `insertOne` cannot fail
on it, the two duplicate checks of `insertMany` depend only on the
truthy-`_id` subsequence of the batch, and an all-falsy batch is
delegated to the engine unchanged and succeeds. -/
theorem falsy_id_skips_duplicate_checks (genId : Nat → String) (cl : ClientState)
    (c : Collection) (hconn : cl._isConnected = true) :
    (∀ document : Document, truthyId document = false →
        exceptOk (Collection.insertOne genId cl c document) = true) ∧
    (∀ docs1 docs2 : List Document, docs1.filter truthyId = docs2.filter truthyId →
        dupCheck c._collectionName c._engine docs1 = dupCheck c._collectionName c._engine docs2) ∧
    (∀ documents : List Document, (∀ d ∈ documents, truthyId d = false) →
        Collection.insertMany genId cl c documents =
          .ok ({ c with _engine := (engineInsertMany genId c._engine documents).1 },
            { acknowledged := true,
              insertedCount := (engineInsertMany genId c._engine documents).2.length,
              insertedIds := (engineInsertMany genId c._engine documents).2.map idPrim })) := by
  refine ⟨?_, ?_, ?_⟩
  · intro document htr
    unfold Collection.insertOne
    rw [hconn, htr]
    rfl
  · intro docs1 docs2 hfilter
    unfold dupCheck
    rw [hfilter]
  · intro documents hall
    have hemp : documents.filter truthyId = [] := by
      rw [List.filter_eq_nil_iff]
      intro d hd
      simp [hall d hd]
    unfold Collection.insertMany dupCheck
    rw [hconn, hemp]
    rfl

theorem falsy_id_skips_duplicate_checks_witness :
    exClientConn._isConnected = true ∧
    exceptOk (Collection.insertOne exGenId exClientConn exCollAbc
      { _id := some (.vNum 0), payload := 9 }) = true :=
  ⟨rfl, (falsy_id_skips_duplicate_checks exGenId exClientConn exCollAbc rfl).1
    { _id := some (.vNum 0), payload := 9 } rfl⟩

/-- C8: an `insertMany` call that passes both duplicate checks succeeds
with `acknowledged: true`, `insertedCount` equal to the number of
documents the engine inserted (the whole batch), and `insertedIds`
holding one entry per input index: the supplied `_id` when the document
carried one, an engine-generated id otherwise.  Passing the intra-batch
check means the truthy `_id` keys are pairwise distinct and none of
them is a key inherited from `Object.prototype` (the JavaScript `in`
probe answers `true` for those even on first occurrence); passing the
cross-batch check means no stored document carries one of the batch
ids. -/
theorem insertMany_success_result (genId : Nat → String) (cl : ClientState)
    (c : Collection) (documents : List Document)
    (hconn : cl._isConnected = true)
    (hnodup : (keysOf documents).Nodup)
    (hclean : ∀ k ∈ keysOf documents, k ∉ objectProtoKeys)
    (hfresh : ∀ d ∈ c._engine.docs, ∀ dd ∈ documents.filter truthyId, d._id ≠ dd._id) :
    ∃ c2 r, Collection.insertMany genId cl c documents = .ok (c2, r) ∧
      r.acknowledged = true ∧
      r.insertedCount = documents.length ∧
      r.insertedIds.length = documents.length ∧
      ∀ (i : Nat) (d : Document), documents[i]? = some d →
        (∀ v, d._id = some v → r.insertedIds[i]? = some v) ∧
        (d._id = none → ∃ k, r.insertedIds[i]? = some (.vStr (genId k))) := by
  have hdc := dupCheck_eq_none c._collectionName c._engine documents hnodup hclean hfresh
  have hrun : Collection.insertMany genId cl c documents =
      .ok ({ c with _engine := (engineInsertMany genId c._engine documents).1 },
        { acknowledged := true,
          insertedCount := (engineInsertMany genId c._engine documents).2.length,
          insertedIds := (engineInsertMany genId c._engine documents).2.map idPrim }) := by
    unfold Collection.insertMany
    rw [hconn, hdc]
    rfl
  refine ⟨_, _, hrun, rfl, ?_, ?_, ?_⟩
  · exact engineInsertMany_length genId documents c._engine
  · simp [engineInsertMany_length genId documents c._engine]
  · intro i d h
    obtain ⟨d2, h1, h2, h3⟩ := engineInsertMany_ids genId documents c._engine i d h
    constructor
    · intro v hv
      rw [List.getElem?_map, h1]
      simp [idPrim, h2 v hv]
    · intro hv
      obtain ⟨k, hk⟩ := h3 hv
      exact ⟨k, by rw [List.getElem?_map, h1]; simp [idPrim, hk]⟩

def exCollEmpty : Collection :=
  { instId := 0, _collectionName := "frogs", _engine := {} }

def exBatchAuto : List Document :=
  [noIdDoc 1, strDoc "p" 2, noIdDoc 3]

theorem insertMany_success_result_witness :
    exClientConn._isConnected = true ∧ (keysOf exBatchAuto).Nodup ∧
    (∀ k ∈ keysOf exBatchAuto, k ∉ objectProtoKeys) ∧
    (∃ c2 r, Collection.insertMany exGenId exClientConn exCollEmpty exBatchAuto = .ok (c2, r) ∧
      r.acknowledged = true ∧
      r.insertedCount = exBatchAuto.length ∧
      r.insertedIds.length = exBatchAuto.length ∧
      ∀ (i : Nat) (d : Document), exBatchAuto[i]? = some d →
        (∀ v, d._id = some v → r.insertedIds[i]? = some v) ∧
        (d._id = none → ∃ k, r.insertedIds[i]? = some (.vStr (exGenId k)))) :=
  ⟨rfl, by decide, by decide,
    insertMany_success_result exGenId exClientConn exCollEmpty exBatchAuto rfl (by decide)
      (by decide) (by intro d hd dd _; simp [exCollEmpty] at hd)⟩

/-- C3: duplicate detection in `insertMany` is two-phase in a fixed order.
If the intra-batch scan hits — a repeated truthy `_id`, or an `_id`
naming an inherited `Object.prototype` property, either way a JavaScript
`in` hit — the outcome does not depend on the engine state at all (the
cross-batch query is never consulted) and the call fails; if the
intra-batch scan passes (distinct keys, none inherited) and the engine
query returns a non-empty result, the call fails with the error naming
the collection and the `_id` of the first document the engine returned,
and no state escapes the call (nothing is inserted). -/
theorem insertMany_twoPhase_duplicate_detection (genId : Nat → String) (cl : ClientState)
    (c : Collection) (documents : List Document) (hconn : cl._isConnected = true) :
    (¬ ((keysOf documents).Nodup ∧ ∀ k ∈ keysOf documents, k ∉ objectProtoKeys) →
        (∀ es2 : EngineState,
            Collection.insertMany genId cl c documents =
              Collection.insertMany genId cl { c with _engine := es2 } documents) ∧
          exceptOk (Collection.insertMany genId cl c documents) = false) ∧
    (((keysOf documents).Nodup ∧ ∀ k ∈ keysOf documents, k ∉ objectProtoKeys) →
        ∀ (d0 : Document) (rest : List Document),
          engineFindIdIn (idsOf documents) c._engine = d0 :: rest →
          Collection.insertMany genId cl c documents =
            .error (crossMsg c._collectionName (idPrim d0))) := by
  constructor
  · intro hnd
    have hsome : ∃ t, scanDup [] (documents.filter truthyId) = some t := by
      cases hs : scanDup [] (documents.filter truthyId) with
      | some t => exact ⟨t, rfl⟩
      | none =>
          exfalso
          apply hnd
          have := clean_of_scanDup_none (documents.filter truthyId) [] List.nodup_nil hs
          constructor
          · simpa [keysOf] using this.1
          · simpa [keysOf] using this.2
    obtain ⟨⟨i, v, t⟩, hs⟩ := hsome
    have hne : (documents.filter truthyId).isEmpty = false := by
      cases hfe : documents.filter truthyId with
      | nil => rw [hfe] at hs; simp [scanDup] at hs
      | cons a l => simp [hfe]
    have herr : ∀ es : EngineState,
        Collection.insertMany genId cl { c with _engine := es } documents =
          .error (intraMsg i v t) := by
      intro es
      have hdc : dupCheck c._collectionName es documents = some (intraMsg i v t) := by
        unfold dupCheck
        dsimp only
        rw [hne, hs]
        rfl
      unfold Collection.insertMany
      rw [hconn]
      dsimp only
      rw [hdc]
      rfl
    constructor
    · intro es2
      have h1 := herr c._engine
      have h2 := herr es2
      rw [show ({ c with _engine := c._engine } : Collection) = c from rfl] at h1
      rw [h1, h2]
    · have h1 := herr c._engine
      rw [show ({ c with _engine := c._engine } : Collection) = c from rfl] at h1
      rw [h1]
      rfl
  · intro hnd d0 rest hfind
    have hne : (documents.filter truthyId).isEmpty = false := by
      cases hfe : documents.filter truthyId with
      | nil =>
          exfalso
          have hids : idsOf documents = [] := by simp [idsOf, hfe]
          rw [hids] at hfind
          simp [engineFindIdIn] at hfind
      | cons a l => simp [hfe]
    have hscan : scanDup [] (documents.filter truthyId) = none := by
      apply scanDup_eq_none_of_clean
      · simpa [keysOf] using hnd.1
      · simpa [keysOf] using hnd.2
    have hfind2 : engineFindIdIn ((documents.filter truthyId).map idPrim) c._engine
        = d0 :: rest := by
      simpa [idsOf] using hfind
    have hdc : dupCheck c._collectionName c._engine documents =
        some (crossMsg c._collectionName (idPrim d0)) := by
      unfold dupCheck
      dsimp only
      rw [hne, hscan, hfind2]
      rfl
    unfold Collection.insertMany
    rw [hconn, hdc]
    rfl

def exCollCross : Collection :=
  { instId := 0, _collectionName := "coll_1",
    _engine := { docs := [strDoc "abc" 5, strDoc "def" 6], counter := 0 } }

def exBatchCross : List Document :=
  [strDoc "ghi" 14, noIdDoc 15, strDoc "def" 16, strDoc "abc" 17]

theorem insertMany_twoPhase_duplicate_detection_witness :
    exClientConn._isConnected = true ∧
    ((keysOf exBatchCross).Nodup ∧ ∀ k ∈ keysOf exBatchCross, k ∉ objectProtoKeys) ∧
    Collection.insertMany exGenId exClientConn exCollCross exBatchCross =
      .error "insertMany(): Collection \x27coll_1\x27 already contains a document with `_id` \x27abc\x27" :=
  ⟨rfl, by decide,
    (insertMany_twoPhase_duplicate_detection exGenId exClientConn exCollCross exBatchCross
      rfl).2 (by decide) (strDoc "abc" 5) [strDoc "def" 6] (by decide)⟩

/-- C2, counterexample: on the batch
`[{_id:'a'},{x:1},{_id:'b'},{x:2},{_id:'a'},{_id:'b'}]` the intra-batch
error of `insertMany` reports positions 2 and 0 — the positions of the
colliding documents inside the filtered `docsWithIds` array — not the
positions 4 and 0 of the original `documents` array asserted by the
claim (the repository's own test expects the filtered positions). -/
theorem insertMany_intraBatch_reported_indices_cex :
    Collection.insertMany exGenId exClientConn exCollEmpty
      [strDoc "a" 0, noIdDoc 1, strDoc "b" 2, noIdDoc 3, strDoc "a" 4, strDoc "b" 5] =
      .error "insertMany(): `documents[2]` has the same `_id` \x27a\x27 as `documents[0]`" ∧
    "insertMany(): `documents[2]` has the same `_id` \x27a\x27 as `documents[0]`" ≠
      "insertMany(): `documents[4]` has the same `_id` \x27a\x27 as `documents[0]`" :=
  ⟨rfl, by decide⟩

/-- C2, amended: `insertMany` fails on the first repeated truthy `_id` in
input order, and the reported 0-based positions `i` and `j` (`j < i`,
first repeat against first occurrence) are positions within the filtered
subsequence `docsWithIds` of documents carrying a truthy `_id`, not
within the original `documents` array — provided no document before the
repeat has an `_id` that coerces to an inherited `Object.prototype`
property name (such an id makes the JavaScript `in` probe hit at its own
first occurrence, throwing with the inherited value interpolated
instead). -/
theorem insertMany_intraBatch_first_repeat (genId : Nat → String) (cl : ClientState)
    (c : Collection) (documents : List Document) (i j : Nat)
    (hconn : cl._isConnected = true)
    (hfrp : FRP (keysOf documents) i j)
    (hproto : ∀ a, a < i → (keysOf documents).getD a "" ∉ objectProtoKeys) :
    Collection.insertMany genId cl c documents =
      .error (intraMsg i (idPrim ((documents.filter truthyId).getD i default)) (toString j)) := by
  have hscan : scanDup [] (documents.filter truthyId) =
      some (i, idPrim ((documents.filter truthyId).getD (i - List.length ([] : List String)) default),
        toString j) := by
    apply scanDup_of_FRP _ [] List.nodup_nil
    · simpa [keysOf] using hfrp
    · simpa [keysOf] using hproto
  simp only [List.length_nil, Nat.sub_zero] at hscan
  have hne : (documents.filter truthyId).isEmpty = false := by
    obtain ⟨_, hi, _, _, _⟩ := hfrp
    cases hfe : documents.filter truthyId with
    | nil => simp [keysOf, hfe] at hi
    | cons a l => simp [hfe]
  have hdc : dupCheck c._collectionName c._engine documents =
      some (intraMsg i (idPrim ((documents.filter truthyId).getD i default)) (toString j)) := by
    unfold dupCheck
    dsimp only
    rw [hne, hscan]
    rfl
  unfold Collection.insertMany
  rw [hconn, hdc]
  rfl

def exBatchIntra : List Document :=
  [strDoc "a" 0, noIdDoc 1, strDoc "b" 2, noIdDoc 3, strDoc "a" 4, strDoc "b" 5]

theorem insertMany_intraBatch_first_repeat_witness :
    exClientConn._isConnected = true ∧ FRP (keysOf exBatchIntra) 2 0 ∧
    (∀ a, a < 2 → (keysOf exBatchIntra).getD a "" ∉ objectProtoKeys) ∧
    Collection.insertMany exGenId exClientConn exCollEmpty exBatchIntra =
      .error (intraMsg 2 (idPrim ((exBatchIntra.filter truthyId).getD 2 default)) (toString 0)) :=
  ⟨rfl, by decide, by decide,
    insertMany_intraBatch_first_repeat exGenId exClientConn exCollEmpty exBatchIntra 2 0
      rfl (by decide) (by decide)⟩

/-- C4, counterexample: `dropDatabase()` and `listCollections()` read no
connection state at all — with the owning client disconnected,
`dropDatabase` still succeeds (clears the cache and resolves `true`) and
`listCollections` still returns the cached names, refuting "every
operation of Client, Database and Collection fails while the owning
Client is disconnected". -/
theorem dropDatabase_succeeds_while_disconnected_cex :
    ClientState._isConnected { engineNAME := "ok", engineVERSION := "1.2.3", _isConnected := false } = false ∧
    Database.dropDatabase { instId := 3, _collections := [("c_one", newCollection "c_one" 5)] } =
      ({ instId := 3, _collections := [] }, true) ∧
    Database.listCollections { instId := 3, _collections := [("c_one", newCollection "c_one" 5)] } =
      ["c_one"] :=
  ⟨rfl, rfl, rfl⟩

/-- C4, amended: while the owning client is disconnected every gated
operation — `db()`, `collection()`, `insertOne()`, `insertMany()` and
`find()` — fails, whatever its other arguments; `dropDatabase()` and
`listCollections()` are not gated and succeed regardless of the
connection state. -/
theorem gated_ops_fail_while_disconnected (cl : ClientState)
    (hdisc : cl._isConnected = false) :
    (∀ (dbName : String) (fresh : Nat), exceptOk (clientDb cl dbName fresh) = false) ∧
    (∀ (d : DatabaseObj) (name : String) (fresh : Nat),
        exceptOk (Database.collection cl d name fresh) = false) ∧
    (∀ (genId : Nat → String) (c : Collection) (document : Document),
        exceptOk (Collection.insertOne genId cl c document) = false) ∧
    (∀ (genId : Nat → String) (c : Collection) (documents : List Document),
        exceptOk (Collection.insertMany genId cl c documents) = false) ∧
    (∀ (c : Collection) (p : Document → Bool),
        exceptOk (Collection.find cl c p) = false) ∧
    (∀ d : DatabaseObj, Database.dropDatabase d = ({ d with _collections := [] }, true)) ∧
    (∀ d : DatabaseObj, Database.listCollections d = d._collections.map Prod.fst) := by
  refine ⟨?_, ?_, ?_, ?_, ?_, fun d => rfl, fun d => rfl⟩
  · intro dbName fresh
    unfold clientDb
    rw [hdisc]
    split
    · rfl
    · split
      · rfl
      · rfl
  · intro d name fresh
    unfold Database.collection
    rw [hdisc]
    split
    · rfl
    · rfl
  · intro genId c document
    unfold Collection.insertOne
    rw [hdisc]
    rfl
  · intro genId c documents
    unfold Collection.insertMany
    rw [hdisc]
    rfl
  · intro c p
    unfold Collection.find
    rw [hdisc]
    rfl

def exClientDisc : ClientState :=
  { engineNAME := "ok", engineVERSION := "1.2.3", _isConnected := false }

theorem gated_ops_fail_while_disconnected_witness :
    exClientDisc._isConnected = false ∧
    exceptOk (clientDb exClientDisc "db_1" 0) = false ∧
    exceptOk (Collection.insertOne exGenId exClientDisc exCollAbc (strDoc "zzz" 1)) = false :=
  ⟨rfl,
    (gated_ops_fail_while_disconnected exClientDisc rfl).1 "db_1" 0,
    (gated_ops_fail_while_disconnected exClientDisc rfl).2.2.1 exGenId exCollAbc (strDoc "zzz" 1)⟩

/-- C5: on a bound client, the synchronous part of `connect()` leaves the
state untouched (the connected flag is assigned only after the
suspension, by the resume step), so a gated operation issued between the
call and its settlement still sees the disconnected state and fails;
`close()` instead flips the flag to `false` already in its synchronous
part, so gated operations fail from the moment it is called, and its
resume step changes nothing further. -/
theorem connect_close_suspension_ordering (st : ClientState)
    (hb : engineBound st = true) :
    connectPhase1 st = .ok st ∧
    (connectResume st)._isConnected = true ∧
    (st._isConnected = false →
      ∀ (dbName : String) (fresh : Nat), validName dbName = true →
        clientDb st dbName fresh = .error (notConnectedMsg "db()")) ∧
    closePhase1 st = .ok { st with _isConnected := false } ∧
    closeResume { st with _isConnected := false } = { st with _isConnected := false } ∧
    (∀ (dbName : String) (fresh : Nat), validName dbName = true →
      clientDb { st with _isConnected := false } dbName fresh =
        .error (notConnectedMsg "db()")) := by
  refine ⟨?_, rfl, ?_, ?_, rfl, ?_⟩
  · unfold connectPhase1
    rw [hb]
    rfl
  · intro hdisc dbName fresh hvn
    unfold clientDb
    rw [hb, hvn, hdisc]
    rfl
  · unfold closePhase1
    rw [hb]
    rfl
  · intro dbName fresh hvn
    unfold clientDb
    rw [show engineBound { st with _isConnected := false } = true from hb, hvn]
    rfl

theorem connect_close_suspension_ordering_witness :
    engineBound exClientDisc = true ∧
    connectPhase1 exClientDisc = .ok exClientDisc ∧
    clientDb exClientDisc "db_1" 0 = .error (notConnectedMsg "db()") :=
  ⟨rfl,
    (connect_close_suspension_ordering exClientDisc rfl).1,
    (connect_close_suspension_ordering exClientDisc rfl).2.2.1 rfl "db_1" 0 (by decide)⟩

def badEngineArg : EngineArg :=
  { isFunction := true, NAME := some "", VERSION := some "1" }

def goodEngineArg : EngineArg :=
  { isFunction := true, NAME := some "ok", VERSION := some "1.2.3" }

/-- C6, counterexample: a first `injectEngine()` call rejected for
invalid input (here an empty `NAME`) throws before any assignment, so
the client still holds the `NoopEngine` placeholder; a second call with
valid input then succeeds — refuting "the second call always fails,
regardless of whether the first call succeeded with valid input or was
rejected for invalid input".  (The repository's own tests perform
several rejected calls and then a successful one on the same client.) -/
theorem injectEngine_second_call_cex :
    exceptOk (injectEngine newMongoishClient badEngineArg) = false ∧
    exceptOk (injectEngine newMongoishClient goodEngineArg) = true :=
  ⟨rfl, rfl⟩

/-- C6, amended: a second `injectEngine()` call fails whenever the first
call succeeded — a successful bind records a non-empty `NAME`, which the
already-injected check then rejects.  (After a rejected first call the
client is unchanged and a later valid call may succeed.) -/
theorem injectEngine_fails_after_successful_bind
    (st st2 : ClientState) (e1 e2 : EngineArg)
    (h : injectEngine st e1 = .ok st2) :
    exceptOk (injectEngine st2 e2) = false := by
  unfold injectEngine at h
  by_cases h1 : (st.engineNAME != "" || st.engineVERSION != "") = true
  · rw [if_pos h1] at h
    cases h
  · rw [if_neg h1] at h
    by_cases h2 : (!validEngineArg e1) = true
    · rw [if_pos h2] at h
      cases h
    · rw [if_neg h2] at h
      have hst2 :
          ({ st with engineNAME := e1.NAME.getD "", engineVERSION := e1.VERSION.getD "" } : ClientState) = st2 := by
        injection h
      have hv : validEngineArg e1 = true := by
        cases hvv : validEngineArg e1
        · rw [hvv] at h2
          simp at h2
        · rfl
      have hname : ∃ s, e1.NAME = some s ∧ 1 ≤ s.length := by
        unfold validEngineArg at hv
        cases hn : e1.NAME with
        | none =>
            rw [hn] at hv
            simp at hv
        | some s =>
            rw [hn] at hv
            simp only [Bool.and_eq_true, decide_eq_true_eq] at hv
            exact ⟨s, rfl, hv.1.2⟩
      obtain ⟨s, hn, hslen⟩ := hname
      have hsne : s ≠ "" := fun he => absurd (he ▸ hslen) (by decide)
      have hcond : (st2.engineNAME != "" || st2.engineVERSION != "") = true := by
        rw [← hst2]
        simp [hn, bne_iff_ne, hsne]
      unfold injectEngine
      rw [if_pos hcond]
      rfl

def exBoundClient : ClientState :=
  { engineNAME := "ok", engineVERSION := "1.2.3", _isConnected := false }

theorem injectEngine_fails_after_successful_bind_witness :
    injectEngine newMongoishClient goodEngineArg = .ok exBoundClient ∧
    exceptOk (injectEngine exBoundClient goodEngineArg) = false :=
  ⟨rfl,
    injectEngine_fails_after_successful_bind newMongoishClient exBoundClient
      goodEngineArg goodEngineArg rfl⟩

/-- C9, counterexample: the `Database` constructor validates its `dbName`
argument but stores only the client back-reference — two constructions
that differ only in the name produce identical objects, so the instance
cannot hold the name it was constructed with. -/
theorem database_name_not_stored_cex :
    newDatabase "db_a" 7 = newDatabase "db_b" 7 ∧ "db_a" ≠ "db_b" :=
  ⟨rfl, by decide⟩

/-- C9, amended: a `Database` constructed with a valid client and name
holds no name field at all: the construction result is independent of
the name argument, and consists only of the fresh heap identity and the
empty collection cache (plus the client back-reference, threaded into
each operation). -/
theorem database_constructor_ignores_name :
    ∀ (n1 n2 : String) (fresh : Nat),
      newDatabase n1 fresh = newDatabase n2 fresh ∧
      (newDatabase n1 fresh)._collections = [] :=
  fun _n1 _n2 _fresh => ⟨rfl, rfl⟩

/-- C7, counterexample: the valid collection name `constructor` (length
11, matching the naming policy) makes the truthy cache probe
`this._collections[collectionName]` hit the `Object` constructor
inherited from `Object.prototype`.  The source returns that identical
inherited function from every Database handle and never constructs or
caches a Collection — refuting "collection(x) on two different Database
handles returns distinct instances" for every valid name. -/
theorem collection_constructor_identity_cex :
    validName "constructor" = true ∧
    Database.collection exClientConn { instId := 0, _collections := [] } "constructor" 10 =
      .ok (.protoMember "constructor", { instId := 0, _collections := [] }, 10) ∧
    Database.collection exClientConn { instId := 1, _collections := [] } "constructor" 10 =
      .ok (.protoMember "constructor", { instId := 1, _collections := [] }, 10) :=
  ⟨by decide, rfl, rfl⟩

/-- C7, amended: a second `collection(x)` on the same database returns
the identical result and changes nothing (the cached instance for an
allocated name, the same inherited member for a prototype-key name such
as `constructor`); `collection(x)` on two different database handles
(neither holding `x` yet) allocates two distinct instances for every
valid name that is not an inherited `Object.prototype` property; and two
`db(name)` calls on the same client return two distinct freshly
allocated `Database` objects. -/
theorem collection_caching_database_freshness :
    (∀ (cl : ClientState) (d : DatabaseObj) (x : String) (fresh : Nat)
        (c : CollectionResult) (d2 : DatabaseObj) (fresh2 : Nat),
        Database.collection cl d x fresh = .ok (c, d2, fresh2) →
        Database.collection cl d2 x fresh2 = .ok (c, d2, fresh2)) ∧
    (∀ (cl : ClientState) (d1 d2 : DatabaseObj) (x : String) (fresh : Nat)
        (c1 : CollectionResult) (d1b : DatabaseObj) (fresh1 : Nat)
        (c2 : CollectionResult) (d2b : DatabaseObj) (fresh2 : Nat),
        x ∉ objectProtoKeys →
        d1._collections.lookup x = none → d2._collections.lookup x = none →
        Database.collection cl d1 x fresh = .ok (c1, d1b, fresh1) →
        Database.collection cl d2 x fresh1 = .ok (c2, d2b, fresh2) →
        c1 ≠ c2) ∧
    (∀ (st : ClientState) (dbName : String) (fresh : Nat)
        (d1 : DatabaseObj) (fresh1 : Nat) (d2 : DatabaseObj) (fresh2 : Nat),
        clientDb st dbName fresh = .ok (d1, fresh1) →
        clientDb st dbName fresh1 = .ok (d2, fresh2) →
        d1 ≠ d2) := by
  refine ⟨?_, ?_, ?_⟩
  · intro cl d x fresh c d2 fresh2 h
    unfold Database.collection at h ⊢
    by_cases hv : (!validName x) = true
    · rw [if_pos hv] at h
      cases h
    · rw [if_neg hv] at h ⊢
      by_cases hc : (!cl._isConnected) = true
      · rw [if_pos hc] at h
        cases h
      · rw [if_neg hc] at h ⊢
        cases hlk : d._collections.lookup x with
        | some existing =>
            rw [hlk] at h
            simp only [Except.ok.injEq, Prod.mk.injEq] at h
            obtain ⟨h4, h5, h6⟩ := h
            subst h4
            subst h5
            subst h6
            rw [hlk]
        | none =>
            rw [hlk] at h
            dsimp only at h
            by_cases hp : x ∈ objectProtoKeys
            · rw [if_pos hp] at h
              simp only [Except.ok.injEq, Prod.mk.injEq] at h
              obtain ⟨h4, h5, h6⟩ := h
              subst h4
              subst h5
              subst h6
              rw [hlk]
              rw [if_pos hp]
            · rw [if_neg hp] at h
              simp only [Except.ok.injEq, Prod.mk.injEq] at h
              obtain ⟨h4, h5, h6⟩ := h
              subst h4
              subst h5
              subst h6
              have hlk2 : (d._collections ++ [(x, newCollection x fresh)]).lookup x =
                  some (newCollection x fresh) := by
                rw [lookup_append_of_eq_none _ _ _ hlk]
                simp [List.lookup]
              dsimp only
              rw [hlk2]
  · intro cl d1 d2 x fresh c1 d1b fresh1 c2 d2b fresh2 hp hl1 hl2 h1 h2
    unfold Database.collection at h1 h2
    by_cases hv : (!validName x) = true
    · rw [if_pos hv] at h1
      cases h1
    · rw [if_neg hv] at h1 h2
      by_cases hc : (!cl._isConnected) = true
      · rw [if_pos hc] at h1
        cases h1
      · rw [if_neg hc] at h1 h2
        rw [hl1] at h1
        rw [hl2] at h2
        rw [if_neg hp] at h1 h2
        dsimp only at h1 h2
        simp only [Except.ok.injEq, Prod.mk.injEq] at h1 h2
        obtain ⟨e1, _e2, e3⟩ := h1
        obtain ⟨f1, _f2, _f3⟩ := h2
        intro hcc
        rw [← e1, ← f1] at hcc
        have hcc2 : newCollection x fresh = newCollection x fresh1 := by
          injection hcc
        have hid : fresh = fresh1 := by
          have := congrArg Collection.instId hcc2
          simpa [newCollection] using this
        omega
  · intro st dbName fresh d1 fresh1 d2 fresh2 h1 h2
    unfold clientDb at h1 h2
    by_cases hb : (!engineBound st) = true
    · rw [if_pos hb] at h1
      cases h1
    · rw [if_neg hb] at h1 h2
      by_cases hv : (!validName dbName) = true
      · rw [if_pos hv] at h1
        cases h1
      · rw [if_neg hv] at h1 h2
        by_cases hc : (!st._isConnected) = true
        · rw [if_pos hc] at h1
          cases h1
        · rw [if_neg hc] at h1 h2
          simp only [Except.ok.injEq, Prod.mk.injEq] at h1 h2
          obtain ⟨e1, e2⟩ := h1
          obtain ⟨f1, _f2⟩ := h2
          intro hdd
          rw [← e1, ← f1] at hdd
          have hid : fresh = fresh1 := by
            have := congrArg DatabaseObj.instId hdd
            simpa [newDatabase] using this
          omega

def exDbEmpty0 : DatabaseObj := { instId := 0, _collections := [] }

def exDbEmpty1 : DatabaseObj := { instId := 1, _collections := [] }

def exFrogColl : Collection := newCollection "frogs" 10

def exDbFrogCached : DatabaseObj :=
  { instId := 0, _collections := [("frogs", exFrogColl)] }

def exDbFrogCached1 : DatabaseObj :=
  { instId := 1, _collections := [("frogs", newCollection "frogs" 11)] }

theorem collection_caching_database_freshness_witness :
    "frogs" ∉ objectProtoKeys ∧
    Database.collection exClientConn exDbFrogCached "frogs" 11 =
      .ok (.coll exFrogColl, exDbFrogCached, 11) ∧
    CollectionResult.coll exFrogColl ≠ .coll (newCollection "frogs" 11) ∧
    newDatabase "db_1" 0 ≠ newDatabase "db_1" 1 := by
  refine ⟨by decide, ?_, ?_, ?_⟩
  · exact collection_caching_database_freshness.1 exClientConn exDbEmpty0 "frogs" 10
      (.coll exFrogColl) exDbFrogCached 11 rfl
  · exact collection_caching_database_freshness.2.1 exClientConn exDbEmpty0 exDbEmpty1
      "frogs" 10 (.coll exFrogColl) exDbFrogCached 11 (.coll (newCollection "frogs" 11))
      exDbFrogCached1 12 (by decide) rfl rfl rfl rfl
  · exact collection_caching_database_freshness.2.2 exClientConn "db_1" 0
      (newDatabase "db_1" 0) 1 (newDatabase "db_1" 1) 2 rfl rfl
